import Mathlib

/-
Shallow embedding of the gs11 repository: `src/server.js` (Unified Real
Earnings & Withdrawal API v3.4) and the quorum read path shared with the
Strategy Engine variant (`src/unnamed/part_000`).

Modelling conventions:
* JavaScript numbers that carry money amounts (ETH / USD) are modelled as
  exact rationals `ℚ`; the wei comparison `balance < parseEther(x.toFixed(18))`
  in `transferEth` is modelled as the exact comparison `balance < x` on ETH
  amounts (the `toFixed(18)`/`parseEther` round trip is the identity on
  amounts with at most 18 decimal places).
* Remote effects (`getBalance`, `getFeeData`, `sendTransaction`, `tx.wait`)
  are modelled by passing the observed balance as an argument and a Boolean
  `sendOk` describing whether the submitted transaction confirms.
* `lastExecutionResult = { result: lastExecutionResult, timestamp: ... }`
  (the `finally` block of `executeStrategyTrade`) is modelled by the
  inductive `LastResult`, whose `node` constructor wraps the previous value,
  exactly as the source does; the timestamp string is not modelled.
-/

namespace GS11

/-- Destination for large withdrawals: the `COINBASE_WALLET` constant of
`server.js` (line 24). -/
def COINBASE_WALLET : String := "0x4024Fd78E2AD5532FBF3ec2B3eC83870FAe45fC7"

/-- The treasury wallet address constant of `server.js` (line 27). -/
def TREASURY_WALLET_ADDRESS : String := "0x0fF31D4cdCE8B3f7929c04EbD4cd852608DC09f4"

/-- Fixed exchange-rate constant `ETH_PRICE = 3450` (`server.js` line 29). -/
def ETH_PRICE : ℚ := 3450

/-- Minimum-gas floor `MIN_GAS_ETH = 0.01` (`server.js` line 30). -/
def MIN_GAS_ETH : ℚ := 1 / 100

/-- Per-unit synthetic profit `REAL_ETH_PROFIT_PER_TRADE = 0.0001`
(`server.js` line 33). -/
def REAL_ETH_PROFIT_PER_TRADE : ℚ := 1 / 10000

/-- Batch size `STRATEGIES_PER_EXECUTION = 1000000` (`server.js` line 36). -/
def STRATEGIES_PER_EXECUTION : ℕ := 1000000

/-- `AGGREGATE_PROFIT_ETH = REAL_ETH_PROFIT_PER_TRADE * STRATEGIES_PER_EXECUTION`
(`server.js` line 39). -/
def AGGREGATE_PROFIT_ETH : ℚ := REAL_ETH_PROFIT_PER_TRADE * (STRATEGIES_PER_EXECUTION : ℚ)

/-- `AGGREGATE_PROFIT_USD = AGGREGATE_PROFIT_ETH * ETH_PRICE`
(`server.js` line 40). -/
def AGGREGATE_PROFIT_USD : ℚ := AGGREGATE_PROFIT_ETH * ETH_PRICE

/-- The reserved gas floor of the withdrawal handler: the literal `0.003` in
`maxSend = balance - 0.003` (`server.js` line 331). -/
def RESERVED_GAS_FLOOR : ℚ := 3 / 1000

/-- Size of the fixed strategy roster: `STRATEGIES` is built with
`Array.from({ length: 450 }, ...)` (`server.js` line 53). -/
def ROSTER_SIZE : ℕ := 450

/-- Outcome of one call to `transferEth` (`server.js` lines 124-151).
`noSigner` and `insufficientFunds` are the two `throw` sites that occur
before `signer.sendTransaction`; `submitted` records that the transaction
was handed to the signer for broadcast, with `confirmed` describing whether
`tx.wait()` succeeded. -/
inductive TransferResult where
  | noSigner
  | insufficientFunds (balanceETH : ℚ)
  | submitted (dest : String) (value : ℚ) (confirmed : Bool)
deriving DecidableEq

/-- A (recipient, value) pair describing an invocation of the transfer
primitive or an actual transaction submission. -/
structure TransferCall where
  amount : ℚ
  recipient : String
deriving DecidableEq

/-- `transferEth(amountETH, recipient)` (`server.js` lines 124-151): throw if
no signer; refresh the balance; throw `Insufficient ETH balance ...` when
`balance < value`; otherwise fetch fees and submit a signed transaction with
a fixed `gasLimit: 25000`. The freshly queried balance is the `balance`
argument; `sendOk` abstracts the broadcast/confirmation outcome. -/
def transferEth (signerPresent : Bool) (balance amountETH : ℚ) (recipient : String)
    (sendOk : Bool) : TransferResult :=
  if signerPresent = false then .noSigner
  else if balance < amountETH then .insufficientFunds balance
  else .submitted recipient amountETH sendOk

/-- The transaction submissions performed by a `transferEth` call: one when
control reaches `signer.sendTransaction`, none when it throws earlier. -/
def submissionsOf : TransferResult → List TransferCall
  | .submitted dest value _ => [⟨value, dest⟩]
  | _ => []

/-- Whether the transfer ended in a confirmed transaction (the non-throwing
path of `transferEth`, i.e. the `try` block of a caller completing). -/
def transferConfirmed : TransferResult → Bool
  | .submitted _ _ ok => ok
  | _ => false

/-- One step of the JavaScript `||` chain: a parsed field is `none` when the
body field is absent or `parseFloat` returned `NaN`; `NaN` and `0` are falsy,
so the chain falls through to the next operand. -/
def jsOrElse (x : Option ℚ) (d : ℚ) : ℚ :=
  match x with
  | none => d
  | some v => if v = 0 then d else v

/-- The amount parsing of the withdrawal handler:
`parseFloat(amountETH) || parseFloat(amount) || 0` (`server.js` line 324). -/
def parsedAmount (amountETHField amountField : Option ℚ) : ℚ :=
  jsOrElse amountETHField (jsOrElse amountField 0)

/-- Result of the `/backend-to-coinbase` handler (`server.js` lines 321-365):
a 400 when the signer is missing, a 400 echoing the balance and the computed
`maxWithdrawable` ceiling when the amount is rejected, or an attempted
delegation to `transferEth` with the accepted amount and destination. -/
inductive WithdrawOutcome where
  | errNoSigner
  | rejected (treasuryBalance maxWithdrawable : ℚ)
  | attempted (amount : ℚ) (dest : String) (result : TransferResult)
deriving DecidableEq

/-- The `/backend-to-coinbase` handler (`server.js` lines 321-365): parse the
amount with the falsy chain; reject when no signer; compute
`maxSend = balance - 0.003`; default a non-positive amount to `maxSend`
(sweep); reject when the amount is still non-positive or exceeds `maxSend`,
reporting the ceiling; otherwise call `transferEth(ethAmount, COINBASE_WALLET)`. -/
def backendToCoinbase (signerPresent : Bool) (balance : ℚ)
    (amountETHField amountField : Option ℚ) (sendOk : Bool) : WithdrawOutcome :=
  let ethAmount := parsedAmount amountETHField amountField
  if signerPresent = false then .errNoSigner
  else
    let maxSend := balance - RESERVED_GAS_FLOOR
    let ethAmount2 := if ethAmount ≤ 0 then maxSend else ethAmount
    if ethAmount2 ≤ 0 ∨ ethAmount2 > maxSend then .rejected balance maxSend
    else .attempted ethAmount2 COINBASE_WALLET
      (transferEth signerPresent balance ethAmount2 COINBASE_WALLET sendOk)

/-- The value held in the module variable `lastExecutionResult`
(`server.js` line 71). `init` is the initial `null`; `node prev` is the
object `{ result: prev, timestamp }` built in the `finally` block of
`executeStrategyTrade` (`server.js` lines 231-237), whose `result` field
holds the previous value of `lastExecutionResult`. -/
inductive LastResult where
  | init
  | node (prev : LastResult)
deriving DecidableEq

/-- The module-level mutable state of `server.js` touched by
`executeStrategyTrade`: `currentStrategyIndex`, `totalStrategiesExecuted`,
`totalEarnings`, `totalRealizedToTreasury`, `lastExecutionResult`
(lines 60-71). -/
structure EngineState where
  currentStrategyIndex : ℕ
  totalStrategiesExecuted : ℕ
  totalEarnings : ℚ
  totalRealizedToTreasury : ℚ
  lastExecutionResult : LastResult
deriving DecidableEq

/-- The initial module state of `server.js`: index 0, all totals 0,
`lastExecutionResult = null`. -/
def initialState : EngineState := ⟨0, 0, 0, 0, .init⟩

/-- `STRATEGIES[i].id`: the roster entry ids are `i + 1` for `i` in
`0..449` (`server.js` lines 53-58); out-of-range access defaults like an
absent array slot. -/
def strategyIdAt (i : ℕ) : ℕ :=
  (((List.range ROSTER_SIZE).map (fun k => k + 1)).getD i 0)

/-- Accumulated effect of the simulated-execution loop of
`executeStrategyTrade` (`server.js` lines 175-186). -/
structure LoopOut where
  ids : List ℕ
  finalIdx : ℕ
  execCount : ℕ
  earningsDelta : ℚ
deriving DecidableEq

/-- The loop `for (let i = 0; i < n; i++)` of `executeStrategyTrade`
(`server.js` lines 176-186), started at strategy index `i`: push
`STRATEGIES[currentStrategyIndex].id`, step the index by one modulo 450,
count one executed strategy, and add
`REAL_ETH_PROFIT_PER_TRADE * ETH_PRICE` to `totalEarnings`. -/
def runLoop : ℕ → ℕ → LoopOut
  | i, 0 => ⟨[], i, 0, 0⟩
  | i, n + 1 =>
    let r := runLoop ((i + 1) % ROSTER_SIZE) n
    ⟨strategyIdAt i :: r.ids, r.finalIdx, r.execCount + 1,
      r.earningsDelta + REAL_ETH_PROFIT_PER_TRADE * ETH_PRICE⟩

/-- The value returned by `executeStrategyTrade` (`server.js` lines 156-238):
the two early-return error objects, the success object, or the failure object
of the `catch` block. The payloads kept are the ones the claims mention. -/
inductive CycleResult where
  | errNoSigner
  | errNeedsGas (treasuryBalance : ℚ)
  | success (strategiesInBatch : ℕ) (profitETH profitUSD : ℚ) (depositRecipient : String)
  | failed (strategiesInBatch : ℕ) (profitETH : ℚ)
deriving DecidableEq

/-- Everything one call of `executeStrategyTrade` does: the new module
state, the returned result object, the `transferEth` invocations it makes,
and the transaction submissions those invocations reach. -/
structure CycleOutcome where
  state : EngineState
  result : CycleResult
  transferCalls : List TransferCall
  submissions : List TransferCall
deriving DecidableEq

/-- The body of `executeStrategyTrade` past the two gates
(`server.js` lines 174-237): run the million-iteration loop; call
`transferEth(AGGREGATE_PROFIT_ETH, signer.address)`; add
`AGGREGATE_PROFIT_USD` to `totalRealizedToTreasury` only when the transfer
confirms (the `try` block completing); build the success object or the
`catch` block's failure object; and, in `finally`, store
`{ result: lastExecutionResult, timestamp }` — the previous record — into
`lastExecutionResult`. The loop's accumulated effect is the `loop`
argument, instantiated by `executeStrategyTrade` with
`runLoop currentStrategyIndex STRATEGIES_PER_EXECUTION`. -/
def cycleRun (st : EngineState) (signerPresent : Bool)
    (signerAddress : String) (balance : ℚ) (sendOk : Bool) (loop : LoopOut) :
    CycleOutcome :=
  { state :=
      { currentStrategyIndex := loop.finalIdx
        totalStrategiesExecuted := st.totalStrategiesExecuted + loop.execCount
        totalEarnings := st.totalEarnings + loop.earningsDelta
        totalRealizedToTreasury :=
          if transferConfirmed
              (transferEth signerPresent balance AGGREGATE_PROFIT_ETH signerAddress sendOk) then
            st.totalRealizedToTreasury + AGGREGATE_PROFIT_USD
          else st.totalRealizedToTreasury
        lastExecutionResult := .node st.lastExecutionResult }
    result :=
      if transferConfirmed
          (transferEth signerPresent balance AGGREGATE_PROFIT_ETH signerAddress sendOk) then
        .success loop.ids.length AGGREGATE_PROFIT_ETH AGGREGATE_PROFIT_USD signerAddress
      else .failed loop.ids.length AGGREGATE_PROFIT_ETH
    transferCalls := [⟨AGGREGATE_PROFIT_ETH, signerAddress⟩]
    submissions :=
      submissionsOf (transferEth signerPresent balance AGGREGATE_PROFIT_ETH signerAddress sendOk) }

/-- `executeStrategyTrade()` (`server.js` lines 156-238). `balance` is the
value observed by `getTreasuryBalance()`; `signerAddress` is
`signer.address`, the treasury's own address; `sendOk` abstracts whether the
submitted self-transfer confirms. Checks in source order: missing signer,
then `balance < MIN_GAS_ETH` (both early returns, before the `try`, so they
do not touch `lastExecutionResult`); otherwise the cycle body `cycleRun`. -/
def executeStrategyTrade (st : EngineState) (signerPresent : Bool)
    (signerAddress : String) (balance : ℚ) (sendOk : Bool) : CycleOutcome :=
  if signerPresent = false then
    { state := st, result := .errNoSigner, transferCalls := [], submissions := [] }
  else if balance < MIN_GAS_ETH then
    { state := st, result := .errNeedsGas balance, transferCalls := [], submissions := [] }
  else cycleRun st signerPresent signerAddress balance sendOk
    (runLoop st.currentStrategyIndex STRATEGIES_PER_EXECUTION)

/-- The quorum threshold passed to the fallback provider:
`new ethers.FallbackProvider(providers, 1)` in `initProvider`
(`server.js` line 83 and `src/unnamed/part_000` line 70). -/
def FALLBACK_QUORUM : ℕ := 1

/-- How many endpoint responses equal the value `v`; an errored or timed-out
endpoint is `none`. -/
def countVal (rs : List (Option ℕ)) (v : ℕ) : ℕ :=
  rs.countP (fun r => decide (r = some v))

/-- Modelled from the spec: the quorum vote of the fallback provider behind
`currentBlockHeight()`. The voting logic itself lives in the `ethers`
library, not under `src/`; `initProvider` only constructs it with quorum 1.
Following the spec's algorithm, responses are scanned in priority order and
the first value on which at least `quorum` endpoints agree determines the
result; when no value reaches `quorum` agreement the call fails with
`NoQuorum`, modelled as `none`. -/
def quorumAgree (quorum : ℕ) (rs : List (Option ℕ)) : Option ℕ :=
  (rs.filterMap id).find? (fun v => decide (quorum ≤ countVal rs v))

/-- The await boundaries of one `transferEth` invocation
(`server.js` lines 124-151): `provider.getBalance`, `provider.getFeeData`,
`signer.sendTransaction` (the submission), `tx.wait` (the confirmation). -/
inductive TStep where
  | getBalance
  | getFee
  | submit
  | confirm
deriving DecidableEq

/-- The ordered await points one `transferEth` call passes through. -/
def transferSteps : List TStep := [.getBalance, .getFee, .submit, .confirm]

/-- `interleaves tr a b` holds when the event trace `tr` (each entry tagged
with which of two concurrent invocations performed it) is an interleaving of
the step sequences `a` and `b`. `transferEth` contains no lock, and
`startAutoTrader` (`server.js` lines 244-249) fires `executeStrategyTrade`
on a bare `setInterval` while `/backend-to-coinbase` calls `transferEth` on
demand, so under the JavaScript event loop every interleaving of the two
await-separated sequences is schedulable. -/
def interleaves : List (Bool × TStep) → List TStep → List TStep → Bool
  | [], [], [] => true
  | (false, s) :: t, a :: as, bs => if s = a then interleaves t as bs else false
  | (true, s) :: t, as, b :: bs => if s = b then interleaves t as bs else false
  | _, _, _ => false

/-- Invocation `i` has a transaction in flight after the prefix `p`: it has
performed its submission step but its confirmation has not completed. -/
def inFlight (i : Bool) (p : List (Bool × TStep)) : Bool :=
  decide ((i, TStep.submit) ∈ p) && !decide ((i, TStep.confirm) ∈ p)

/-- Both concurrent invocations have a submitted, unconfirmed transaction
after the prefix `p`. -/
def twoInFlightAt (p : List (Bool × TStep)) : Bool :=
  inFlight false p && inFlight true p

/-- Some prefix of the trace has two submissions in flight at once. -/
def existsTwoInFlight (tr : List (Bool × TStep)) : Bool :=
  (List.range (tr.length + 1)).any (fun n => twoInFlightAt (tr.take n))

/-- The serialization property claimed of `transferEth`: along every
schedulable interleaving of two concurrent invocations, two submissions are
never in flight at once. -/
def transferSerialized : Prop :=
  ∀ tr : List (Bool × TStep),
    interleaves tr transferSteps transferSteps = true → existsTwoInFlight tr = false

/-- A concrete schedule: the settlement-cycle invocation submits, then the
withdrawal invocation reaches its own submission before the first
confirmation completes. -/
def badTrace : List (Bool × TStep) :=
  [(false, .getBalance), (false, .getFee), (false, .submit),
   (true, .getBalance), (true, .getFee), (true, .submit),
   (false, .confirm), (true, .confirm)]

theorem strategyIdAt_eq (i : ℕ) (hi : i < ROSTER_SIZE) : strategyIdAt i = i + 1 := by
  simp [strategyIdAt, List.getD_eq_getElem?_getD, List.getElem?_map, List.getElem?_range hi]

theorem roster_pos : 0 < ROSTER_SIZE := by norm_num [ROSTER_SIZE]

theorem runLoop_spec (n : ℕ) : ∀ i : ℕ, i < ROSTER_SIZE →
    runLoop i n =
      ⟨(List.range n).map (fun j => (i + j) % ROSTER_SIZE + 1), (i + n) % ROSTER_SIZE, n,
        (n : ℚ) * (REAL_ETH_PROFIT_PER_TRADE * ETH_PRICE)⟩ := by
  induction n with
  | zero =>
    intro i hi
    simp [runLoop, Nat.mod_eq_of_lt hi]
  | succ n ih =>
    intro i hi
    have hmod : (i + 1) % ROSTER_SIZE < ROSTER_SIZE := Nat.mod_lt _ roster_pos
    simp only [runLoop, ih _ hmod, LoopOut.mk.injEq]
    refine ⟨?_, ?_, trivial, ?_⟩
    · rw [List.range_succ_eq_map, List.map_cons, List.map_map]
      simp only [List.cons.injEq]
      refine ⟨?_, ?_⟩
      · rw [strategyIdAt_eq i hi]
        simp [Nat.mod_eq_of_lt hi]
      · congr 1
        funext j
        simp only [Function.comp_apply, Nat.mod_add_mod]
        congr 2
        omega
    · rw [Nat.mod_add_mod]
      congr 1
      omega
    · push_cast
      ring

/-- C8: each settlement cycle executes exactly `N` work units chosen by
round-robin over the fixed 450-entry strategy roster: the `j`-th unit of a
cycle starting at index `i` is strategy `(i + j) % 450 + 1`, two units get
the same identifier exactly when their positions agree modulo the roster
size (so no identifier is skipped or repeated within a full roster
traversal), and the index continues monotonically: the cycle ends at
`(i + N) % 450`. -/
theorem round_robin_batch (i N : ℕ) (hi : i < ROSTER_SIZE) :
    (runLoop i N).ids.length = N ∧
    (runLoop i N).finalIdx = (i + N) % ROSTER_SIZE ∧
    (∀ j (hj : j < (runLoop i N).ids.length),
      (runLoop i N).ids.get ⟨j, hj⟩ = (i + j) % ROSTER_SIZE + 1) ∧
    (∀ j k (hj : j < (runLoop i N).ids.length) (hk : k < (runLoop i N).ids.length),
      (runLoop i N).ids.get ⟨j, hj⟩ = (runLoop i N).ids.get ⟨k, hk⟩ ↔
        j % ROSTER_SIZE = k % ROSTER_SIZE) := by
  have hspec := runLoop_spec N i hi
  rw [hspec]
  have hlen : ((List.range N).map (fun j => (i + j) % ROSTER_SIZE + 1)).length = N := by
    simp
  have hget : ∀ j (hj : j < ((List.range N).map
      (fun j => (i + j) % ROSTER_SIZE + 1)).length),
      ((List.range N).map (fun j => (i + j) % ROSTER_SIZE + 1)).get ⟨j, hj⟩ =
        (i + j) % ROSTER_SIZE + 1 := by
    intro j hj
    simp [List.get_eq_getElem]
  refine ⟨hlen, rfl, hget, ?_⟩
  intro j k hj hk
  rw [hget j hj, hget k hk]
  constructor
  · intro h
    have h2 : (i + j) % ROSTER_SIZE = (i + k) % ROSTER_SIZE := by omega
    have h3 : j ≡ k [MOD ROSTER_SIZE] := Nat.ModEq.add_left_cancel' i h2
    exact h3
  · intro h
    have h2 : i + j ≡ i + k [MOD ROSTER_SIZE] := Nat.ModEq.add_left i h
    simp [Nat.ModEq] at h2
    omega

theorem round_robin_batch_witness :
    (runLoop 0 3).ids.length = 3 ∧
    (runLoop 0 3).finalIdx = (0 + 3) % ROSTER_SIZE ∧
    (∀ j (hj : j < (runLoop 0 3).ids.length),
      (runLoop 0 3).ids.get ⟨j, hj⟩ = (0 + j) % ROSTER_SIZE + 1) ∧
    (∀ j k (hj : j < (runLoop 0 3).ids.length) (hk : k < (runLoop 0 3).ids.length),
      (runLoop 0 3).ids.get ⟨j, hj⟩ = (runLoop 0 3).ids.get ⟨k, hk⟩ ↔
        j % ROSTER_SIZE = k % ROSTER_SIZE) :=
  round_robin_batch 0 3 (by decide)

/-- C1: for every amount `a` and balance `b` observed by refreshing the
balance at the start of `transferEth`, if `a > b` the call fails with the
insufficient-funds error carrying the observed balance, and no transaction
submission is made: the `signer.sendTransaction` step is never reached. -/
theorem transferEth_insufficient_no_submission (b a : ℚ) (recipient : String)
    (sendOk : Bool) (h : a > b) :
    transferEth true b a recipient sendOk = .insufficientFunds b ∧
    submissionsOf (transferEth true b a recipient sendOk) = [] := by
  have hba : b < a := h
  refine ⟨?_, ?_⟩ <;> simp [transferEth, hba, submissionsOf]

theorem transferEth_insufficient_no_submission_witness :
    transferEth true 1 2 COINBASE_WALLET true = .insufficientFunds 1 ∧
    submissionsOf (transferEth true 1 2 COINBASE_WALLET true) = [] :=
  transferEth_insufficient_no_submission 1 2 COINBASE_WALLET true (by norm_num)

/-- C2: with the treasury balance `B` and the reserved gas floor
`RESERVED_GAS_FLOOR`, the withdrawal handler (1) turns an omitted or
non-positive parsed amount into the sweep amount `B - RESERVED_GAS_FLOOR`
and delegates it to `transferEth` toward `COINBASE_WALLET` when that sweep
is positive, (2) rejects any amount exceeding `B - RESERVED_GAS_FLOOR`
before any transfer, echoing the computed ceiling, (3) rejects when the
ceiling itself is non-positive, echoing it, and (4) delegates any accepted
positive amount to `transferEth` toward the configured destination. -/
theorem withdraw_ceiling (B : ℚ) (aEth aV : Option ℚ) (sendOk : Bool) :
    (parsedAmount aEth aV ≤ 0 → 0 < B - RESERVED_GAS_FLOOR →
      backendToCoinbase true B aEth aV sendOk =
        .attempted (B - RESERVED_GAS_FLOOR) COINBASE_WALLET
          (transferEth true B (B - RESERVED_GAS_FLOOR) COINBASE_WALLET sendOk)) ∧
    (B - RESERVED_GAS_FLOOR < parsedAmount aEth aV →
      backendToCoinbase true B aEth aV sendOk =
        .rejected B (B - RESERVED_GAS_FLOOR)) ∧
    (B - RESERVED_GAS_FLOOR ≤ 0 →
      backendToCoinbase true B aEth aV sendOk =
        .rejected B (B - RESERVED_GAS_FLOOR)) ∧
    (0 < parsedAmount aEth aV → parsedAmount aEth aV ≤ B - RESERVED_GAS_FLOOR →
      backendToCoinbase true B aEth aV sendOk =
        .attempted (parsedAmount aEth aV) COINBASE_WALLET
          (transferEth true B (parsedAmount aEth aV) COINBASE_WALLET sendOk)) := by
  refine ⟨?_, ?_, ?_, ?_⟩
  · intro h1 h2
    simp [backendToCoinbase, h1, not_le.mpr h2, lt_irrefl]
  · intro h1
    by_cases hq : parsedAmount aEth aV ≤ 0
    · have hf : B - RESERVED_GAS_FLOOR ≤ 0 := le_of_lt (lt_of_lt_of_le h1 hq)
      simp [backendToCoinbase, hq, hf]
    · simp [backendToCoinbase, hq, h1]
  · intro h1
    by_cases hq : parsedAmount aEth aV ≤ 0
    · simp [backendToCoinbase, hq, h1]
    · have h2 : B - RESERVED_GAS_FLOOR < parsedAmount aEth aV :=
        lt_of_le_of_lt h1 (not_le.mp hq)
      simp [backendToCoinbase, hq, h2]
  · intro h1 h2
    simp [backendToCoinbase, not_le.mpr h1, not_lt.mpr h2]

theorem withdraw_ceiling_witness :
    backendToCoinbase true 1 none none true =
      .attempted (1 - RESERVED_GAS_FLOOR) COINBASE_WALLET
        (transferEth true 1 (1 - RESERVED_GAS_FLOOR) COINBASE_WALLET true) :=
  (withdraw_ceiling 1 none none true).1 (by norm_num [parsedAmount, jsOrElse])
    (by norm_num [RESERVED_GAS_FLOOR])

/-- C10: a withdrawal request whose body provides neither `amountETH` nor
`amount`, or whose values do not parse as numbers (both parsed fields
`none`), yields parsed amount 0, and — on a balance with a positive sweep —
the handler performs a full sweep of `balance - 0.003` to the fixed
Coinbase destination and reaches the transaction submission, rather than
rejecting the malformed input. -/
theorem malformed_amount_sweeps (B : ℚ) (sendOk : Bool)
    (h : 0 < B - RESERVED_GAS_FLOOR) :
    parsedAmount none none = 0 ∧
    backendToCoinbase true B none none sendOk =
      .attempted (B - RESERVED_GAS_FLOOR) COINBASE_WALLET
        (.submitted COINBASE_WALLET (B - RESERVED_GAS_FLOOR) sendOk) := by
  have hfloor : (0 : ℚ) < RESERVED_GAS_FLOOR := by norm_num [RESERVED_GAS_FLOOR]
  have hlt : ¬ B < B - RESERVED_GAS_FLOOR := by linarith
  refine ⟨rfl, ?_⟩
  simp [backendToCoinbase, parsedAmount, jsOrElse, not_le.mpr h, lt_irrefl,
    transferEth, hlt]

theorem malformed_amount_sweeps_witness :
    parsedAmount none none = 0 ∧
    backendToCoinbase true 1 none none true =
      .attempted (1 - RESERVED_GAS_FLOOR) COINBASE_WALLET
        (.submitted COINBASE_WALLET (1 - RESERVED_GAS_FLOOR) true) :=
  malformed_amount_sweeps 1 true (by norm_num [RESERVED_GAS_FLOOR])

/-- C3 counterexample: it is not the case that every schedulable
interleaving of two concurrent `transferEth` invocations keeps at most one
submission in flight: the concrete schedule `badTrace` is a valid
interleaving in which both invocations have submitted before either
confirmation completes. `transferEth` has no mutual-exclusion gate, and
`startAutoTrader` runs `executeStrategyTrade` on a bare `setInterval`
concurrently with the on-demand withdrawal handler. -/
theorem transfer_not_serialized : ¬ transferSerialized := by
  intro h
  have hbad := h badTrace (by decide)
  exact absurd hbad (by decide)

/-- C3 amended: the code performs no serialization of `transferEth`
callers: there is a schedulable interleaving of the periodic settlement
transfer and the on-demand withdrawal transfer — `badTrace` — in which two
submissions are in flight at once; neither caller waits or receives a Busy
error. -/
theorem transfer_unserialized_two_in_flight :
    interleaves badTrace transferSteps transferSteps = true ∧
    existsTwoInFlight badTrace = true := by
  decide

/-- C6: when the signer credential is absent, or the observed treasury
balance is below the minimum-gas floor, the settlement cycle is skipped
entirely: the whole outcome is the unchanged state (all counters, the
round-robin index and the last-result slot), a structured error result
(returned, not thrown), no `transferEth` invocation and no submission. -/
theorem cycle_skip_gate (st : EngineState) (addr : String) (balance : ℚ) (sendOk : Bool) :
    executeStrategyTrade st false addr balance sendOk =
      { state := st, result := .errNoSigner, transferCalls := [], submissions := [] } ∧
    (balance < MIN_GAS_ETH →
      executeStrategyTrade st true addr balance sendOk =
        { state := st, result := .errNeedsGas balance,
          transferCalls := [], submissions := [] }) := by
  refine ⟨rfl, ?_⟩
  intro h
  simp [executeStrategyTrade, h]

theorem cycle_skip_gate_witness :
    executeStrategyTrade initialState true TREASURY_WALLET_ADDRESS (1 / 200) true =
      { state := initialState, result := .errNeedsGas (1 / 200),
        transferCalls := [], submissions := [] } :=
  (cycle_skip_gate initialState TREASURY_WALLET_ADDRESS (1 / 200) true).2
    (by norm_num [MIN_GAS_ETH])

theorem executeStrategyTrade_run (st : EngineState) (addr : String) (balance : ℚ)
    (sendOk : Bool) (hbal : MIN_GAS_ETH ≤ balance) :
    executeStrategyTrade st true addr balance sendOk =
      cycleRun st true addr balance sendOk
        (runLoop st.currentStrategyIndex STRATEGIES_PER_EXECUTION) := by
  simp only [executeStrategyTrade, Bool.true_eq_false, if_false,
    not_lt.mpr hbal, reduceIte]

theorem cycleRun_state_realized (st : EngineState) (sp : Bool) (addr : String)
    (balance : ℚ) (sendOk : Bool) (loop : LoopOut) :
    (cycleRun st sp addr balance sendOk loop).state.totalRealizedToTreasury =
      if transferConfirmed (transferEth sp balance AGGREGATE_PROFIT_ETH addr sendOk) then
        st.totalRealizedToTreasury + AGGREGATE_PROFIT_USD
      else st.totalRealizedToTreasury := by
  simp only [cycleRun]

theorem cycleRun_state_earnings (st : EngineState) (sp : Bool) (addr : String)
    (balance : ℚ) (sendOk : Bool) (loop : LoopOut) :
    (cycleRun st sp addr balance sendOk loop).state.totalEarnings =
      st.totalEarnings + loop.earningsDelta := by
  simp only [cycleRun]

theorem cycleRun_state_executed (st : EngineState) (sp : Bool) (addr : String)
    (balance : ℚ) (sendOk : Bool) (loop : LoopOut) :
    (cycleRun st sp addr balance sendOk loop).state.totalStrategiesExecuted =
      st.totalStrategiesExecuted + loop.execCount := by
  simp only [cycleRun]

theorem cycleRun_state_index (st : EngineState) (sp : Bool) (addr : String)
    (balance : ℚ) (sendOk : Bool) (loop : LoopOut) :
    (cycleRun st sp addr balance sendOk loop).state.currentStrategyIndex =
      loop.finalIdx := by
  simp only [cycleRun]

theorem cycleRun_state_last (st : EngineState) (sp : Bool) (addr : String)
    (balance : ℚ) (sendOk : Bool) (loop : LoopOut) :
    (cycleRun st sp addr balance sendOk loop).state.lastExecutionResult =
      .node st.lastExecutionResult := by
  simp only [cycleRun]

theorem cycleRun_result_eq (st : EngineState) (sp : Bool) (addr : String)
    (balance : ℚ) (sendOk : Bool) (loop : LoopOut) :
    (cycleRun st sp addr balance sendOk loop).result =
      if transferConfirmed (transferEth sp balance AGGREGATE_PROFIT_ETH addr sendOk) then
        .success loop.ids.length AGGREGATE_PROFIT_ETH AGGREGATE_PROFIT_USD addr
      else
        .failed loop.ids.length AGGREGATE_PROFIT_ETH := by
  simp only [cycleRun]

theorem cycleRun_transferCalls (st : EngineState) (sp : Bool) (addr : String)
    (balance : ℚ) (sendOk : Bool) (loop : LoopOut) :
    (cycleRun st sp addr balance sendOk loop).transferCalls =
      [⟨AGGREGATE_PROFIT_ETH, addr⟩] := by
  simp only [cycleRun]

theorem cycleRun_submissions (st : EngineState) (sp : Bool) (addr : String)
    (balance : ℚ) (sendOk : Bool) (loop : LoopOut) :
    (cycleRun st sp addr balance sendOk loop).submissions =
      submissionsOf (transferEth sp balance AGGREGATE_PROFIT_ETH addr sendOk) := by
  simp only [cycleRun]

theorem runLoop_length (i : ℕ) (hi : i < ROSTER_SIZE) :
    (runLoop i STRATEGIES_PER_EXECUTION).ids.length = STRATEGIES_PER_EXECUTION := by
  rw [runLoop_spec _ _ hi]
  simp only [List.length_map, List.length_range]

/-- C5: a settlement cycle whose transfer step fails (because the balance
cannot cover the aggregate profit, or the submitted transaction does not
confirm) leaves `totalRealizedToTreasury` unchanged while still advancing
`totalEarnings` (the synthetic-earnings counter), `totalStrategiesExecuted`
and the strategy round-robin index by exactly one batch's worth. -/
theorem failed_cycle_frame (st : EngineState) (addr : String) (balance : ℚ)
    (sendOk : Bool) (hidx : st.currentStrategyIndex < ROSTER_SIZE)
    (hbal : MIN_GAS_ETH ≤ balance)
    (hfail : balance < AGGREGATE_PROFIT_ETH ∨ sendOk = false) :
    (executeStrategyTrade st true addr balance sendOk).result =
      .failed STRATEGIES_PER_EXECUTION AGGREGATE_PROFIT_ETH ∧
    (executeStrategyTrade st true addr balance sendOk).state.totalRealizedToTreasury =
      st.totalRealizedToTreasury ∧
    (executeStrategyTrade st true addr balance sendOk).state.totalEarnings =
      st.totalEarnings +
        (STRATEGIES_PER_EXECUTION : ℚ) * (REAL_ETH_PROFIT_PER_TRADE * ETH_PRICE) ∧
    (executeStrategyTrade st true addr balance sendOk).state.totalStrategiesExecuted =
      st.totalStrategiesExecuted + STRATEGIES_PER_EXECUTION ∧
    (executeStrategyTrade st true addr balance sendOk).state.currentStrategyIndex =
      (st.currentStrategyIndex + STRATEGIES_PER_EXECUTION) % ROSTER_SIZE := by
  have hok : transferConfirmed
      (transferEth true balance AGGREGATE_PROFIT_ETH addr sendOk) = false := by
    rcases hfail with h | h
    · simp [transferEth, h, transferConfirmed]
    · subst h
      simp only [transferEth]
      split_ifs <;> rfl
  refine ⟨?_, ?_, ?_, ?_, ?_⟩ <;>
    rw [executeStrategyTrade_run st addr balance sendOk hbal]
  · rw [cycleRun_result_eq, hok]
    simp only [Bool.false_eq_true, if_false]
    rw [runLoop_length _ hidx]
  · rw [cycleRun_state_realized, hok]
    simp only [Bool.false_eq_true, if_false]
  · rw [cycleRun_state_earnings, runLoop_spec _ _ hidx]
  · rw [cycleRun_state_executed, runLoop_spec _ _ hidx]
  · rw [cycleRun_state_index, runLoop_spec _ _ hidx]

theorem failed_cycle_frame_witness :
    (executeStrategyTrade initialState true TREASURY_WALLET_ADDRESS 1 true).result =
      .failed STRATEGIES_PER_EXECUTION AGGREGATE_PROFIT_ETH ∧
    (executeStrategyTrade initialState true TREASURY_WALLET_ADDRESS 1
        true).state.totalRealizedToTreasury = initialState.totalRealizedToTreasury :=
  ⟨(failed_cycle_frame initialState TREASURY_WALLET_ADDRESS 1 true (by decide)
      (by norm_num [MIN_GAS_ETH])
      (Or.inl (by norm_num [AGGREGATE_PROFIT_ETH, REAL_ETH_PROFIT_PER_TRADE,
        STRATEGIES_PER_EXECUTION]))).1,
   (failed_cycle_frame initialState TREASURY_WALLET_ADDRESS 1 true (by decide)
      (by norm_num [MIN_GAS_ETH])
      (Or.inl (by norm_num [AGGREGATE_PROFIT_ETH, REAL_ETH_PROFIT_PER_TRADE,
        STRATEGIES_PER_EXECUTION]))).2.1⟩

/-- C9: a settlement cycle that passes the gates invokes the transfer
primitive exactly once, with destination the treasury's own address
(`signer.address`) and value the aggregate profit
`REAL_ETH_PROFIT_PER_TRADE * STRATEGIES_PER_EXECUTION`, whose USD figure is
that amount times the fixed `ETH_PRICE` constant; when the balance covers
the value the invocation reaches exactly one submission with that
destination and value, and `totalRealizedToTreasury` is incremented by the
USD aggregate exactly when the transfer succeeds. -/
theorem cycle_single_self_transfer (st : EngineState) (addr : String) (balance : ℚ)
    (sendOk : Bool) (hbal : MIN_GAS_ETH ≤ balance) :
    (executeStrategyTrade st true addr balance sendOk).transferCalls =
      [⟨AGGREGATE_PROFIT_ETH, addr⟩] ∧
    AGGREGATE_PROFIT_ETH = REAL_ETH_PROFIT_PER_TRADE * (STRATEGIES_PER_EXECUTION : ℚ) ∧
    AGGREGATE_PROFIT_USD = AGGREGATE_PROFIT_ETH * ETH_PRICE ∧
    (AGGREGATE_PROFIT_ETH ≤ balance →
      (executeStrategyTrade st true addr balance sendOk).submissions =
        [⟨AGGREGATE_PROFIT_ETH, addr⟩]) ∧
    (AGGREGATE_PROFIT_ETH ≤ balance → sendOk = true →
      (executeStrategyTrade st true addr balance sendOk).state.totalRealizedToTreasury =
        st.totalRealizedToTreasury + AGGREGATE_PROFIT_USD) ∧
    (transferConfirmed (transferEth true balance AGGREGATE_PROFIT_ETH addr sendOk) = false →
      (executeStrategyTrade st true addr balance sendOk).state.totalRealizedToTreasury =
        st.totalRealizedToTreasury) := by
  refine ⟨?_, rfl, rfl, ?_, ?_, ?_⟩
  · rw [executeStrategyTrade_run st addr balance sendOk hbal, cycleRun_transferCalls]
  · intro h
    rw [executeStrategyTrade_run st addr balance sendOk hbal, cycleRun_submissions]
    simp only [transferEth, Bool.true_eq_false, if_false, not_lt.mpr h, reduceIte,
      submissionsOf]
  · intro h1 h2
    subst h2
    rw [executeStrategyTrade_run st addr balance true hbal, cycleRun_state_realized]
    simp only [transferEth, Bool.true_eq_false, if_false, not_lt.mpr h1, reduceIte,
      transferConfirmed, if_true]
  · intro hko
    rw [executeStrategyTrade_run st addr balance sendOk hbal, cycleRun_state_realized,
      hko]
    simp only [Bool.false_eq_true, if_false]

theorem cycle_single_self_transfer_witness :
    (executeStrategyTrade initialState true TREASURY_WALLET_ADDRESS 200
        true).state.totalRealizedToTreasury =
      initialState.totalRealizedToTreasury + AGGREGATE_PROFIT_USD :=
  (cycle_single_self_transfer initialState TREASURY_WALLET_ADDRESS 200 true
      (by norm_num [MIN_GAS_ETH])).2.2.2.2.1
    (by norm_num [AGGREGATE_PROFIT_ETH, REAL_ETH_PROFIT_PER_TRADE,
      STRATEGIES_PER_EXECUTION]) rfl

/-- C7 (code bug): after a completed settlement cycle the retained
`lastExecutionResult` is not the record of that cycle. At the failing input
(initial state, a funded-for-gas balance of 1 ETH, a cycle whose outcome is
the failure record), the `finally` block stores `.node .init` — an object
whose `result` field is the previous value of `lastExecutionResult` — and
the cycle's own result object is discarded; a second cycle nests again,
growing a history chain instead of replacing the latest record wholesale. -/
theorem lastResult_discards_cycle_outcome :
    (executeStrategyTrade initialState true TREASURY_WALLET_ADDRESS 1 true).result =
      .failed STRATEGIES_PER_EXECUTION AGGREGATE_PROFIT_ETH ∧
    (executeStrategyTrade initialState true TREASURY_WALLET_ADDRESS 1
        true).state.lastExecutionResult = .node .init ∧
    (executeStrategyTrade
        (executeStrategyTrade initialState true TREASURY_WALLET_ADDRESS 1 true).state
        true TREASURY_WALLET_ADDRESS 1 true).state.lastExecutionResult =
      .node (.node .init) := by
  have hbal : MIN_GAS_ETH ≤ (1 : ℚ) := by norm_num [MIN_GAS_ETH]
  have hA : (1 : ℚ) < AGGREGATE_PROFIT_ETH := by
    norm_num [AGGREGATE_PROFIT_ETH, REAL_ETH_PROFIT_PER_TRADE, STRATEGIES_PER_EXECUTION]
  have hok : transferConfirmed
      (transferEth true 1 AGGREGATE_PROFIT_ETH TREASURY_WALLET_ADDRESS true) = false := by
    simp [transferEth, hA, transferConfirmed]
  have hidx : initialState.currentStrategyIndex < ROSTER_SIZE := by decide
  refine ⟨?_, ?_, ?_⟩
  · rw [executeStrategyTrade_run initialState TREASURY_WALLET_ADDRESS 1 true hbal,
      cycleRun_result_eq, hok]
    simp only [Bool.false_eq_true, if_false]
    rw [runLoop_length _ hidx]
  · rw [executeStrategyTrade_run initialState TREASURY_WALLET_ADDRESS 1 true hbal,
      cycleRun_state_last]
    rfl
  · rw [executeStrategyTrade_run _ TREASURY_WALLET_ADDRESS 1 true hbal,
      cycleRun_state_last,
      executeStrategyTrade_run initialState TREASURY_WALLET_ADDRESS 1 true hbal,
      cycleRun_state_last]
    rfl
theorem find_all_eq {v : ℕ} {p : ℕ → Bool} :
    ∀ l : List ℕ, l ≠ [] → (∀ x ∈ l, x = v) → p v = true → l.find? p = some v := by
  intro l hne hall hp
  cases l with
  | nil => exact absurd rfl hne
  | cons a t =>
    have ha : a = v := hall a (List.mem_cons_self a t)
    subst ha
    simp [List.find?, hp]

/-- C4: quorum agreement for `currentBlockHeight()`. For every response pool
and every quorum at least 1: when every endpoint that answered returned the
same value `v` and at least `quorum` endpoints returned it, the vote returns
`v`; when no reported value reaches `quorum` agreeing endpoints, the call
fails with `NoQuorum` (`none`). -/
theorem quorum_agreement (quorum : ℕ) (rs : List (Option ℕ)) (v : ℕ)
    (hq : 1 ≤ quorum) :
    ((∀ r ∈ rs, r = none ∨ r = some v) → quorum ≤ countVal rs v →
      quorumAgree quorum rs = some v) ∧
    ((∀ w ∈ rs.filterMap id, countVal rs w < quorum) →
      quorumAgree quorum rs = none) := by
  constructor
  · intro hall hcount
    have hpos : 0 < rs.countP (fun r => decide (r = some v)) :=
      lt_of_lt_of_le hq hcount
    have hmem : some v ∈ rs := by
      rcases List.countP_pos_iff.mp hpos with ⟨r, hr, hdec⟩
      have : r = some v := of_decide_eq_true hdec
      exact this ▸ hr
    have hvmem : v ∈ rs.filterMap id := List.mem_filterMap.mpr ⟨some v, hmem, rfl⟩
    have hne : rs.filterMap id ≠ [] := List.ne_nil_of_mem hvmem
    have hall2 : ∀ x ∈ rs.filterMap id, x = v := by
      intro x hx
      rcases List.mem_filterMap.mp hx with ⟨r, hr, hid⟩
      rcases hall r hr with h | h
      · rw [h] at hid
        exact absurd hid (by simp)
      · rw [h] at hid
        exact (Option.some_inj.mp hid).symm
    exact find_all_eq (rs.filterMap id) hne hall2 (decide_eq_true hcount)
  · intro hlt
    apply List.find?_eq_none.mpr
    intro x hx
    simp only [decide_eq_true_eq]
    exact not_le.mpr (hlt x hx)

theorem quorum_agreement_witness :
    quorumAgree 1 [some 100, some 100, some 100] = some 100 :=
  (quorum_agreement 1 [some 100, some 100, some 100] 100 (by decide)).1
    (by decide) (by decide)

end GS11
